import Mathlib

/-!
Shallow embedding of the NER notebook (`neural_ner.ipynb`): corpus reader,
vocabulary builder (`defaultdict`-backed), batch generator, training loop,
evaluator and single-sentence predictor, with theorems settling the frozen
claims about them.

Python dictionaries are modelled as association lists; the
`defaultdict(lambda: 0)` used for `tok2idx` is modelled with an explicit
`ddGetitem` operation that returns the stored value when the key is present
and otherwise returns `0` *and inserts the key with value `0`* (the actual
`__getitem__` semantics of `collections.defaultdict`).  Machine floats that
only ever feed an argmax are modelled as rationals.
-/

deriving instance DecidableEq for Except

namespace NER

/-- Association-list model of the Python dict `token2idx` / `tag2idx`
(string keys, int values). -/
abbrev DStr := List (String × Nat)

/-- Association-list model of the Python dict `idx2token` / `idx2tag`
(int keys, string values). -/
abbrev DNat := List (Nat × String)

/-- Association-list lookup (`d[k]` / `k in d`): value of the first
binding of key `k`, if any. -/
def aFind {κ ν : Type} [DecidableEq κ] (d : List (κ × ν)) (k : κ) : Option ν :=
  (d.find? fun p => decide (p.1 = k)).map Prod.snd

/-- Association-list `d[k] = v` (`__setitem__`): overwrite the binding
if the key is present, else append a new binding. -/
def aSet {κ ν : Type} [DecidableEq κ] (d : List (κ × ν)) (k : κ) (v : ν) : List (κ × ν) :=
  if d.any fun p => decide (p.1 = k) then
    d.map fun p => if p.1 = k then (k, v) else p
  else
    d ++ [(k, v)]

/-- `k in d` / plain lookup for `token2idx` / `tag2idx`. -/
def dFind (d : DStr) (k : String) : Option Nat := aFind d k

/-- Lookup in the int-keyed dict `idx2token` / `idx2tag`. -/
def dFindNat (d : DNat) (k : Nat) : Option String := aFind d k

/-- The *value* returned by `defaultdict(lambda: 0).__getitem__`:
the stored value when present, else the default `0`. -/
def dLookup0 (d : DStr) (k : String) : Nat :=
  (dFind d k).getD 0

/-- `d[k] = v` on `token2idx` / `tag2idx`. -/
def dSet (d : DStr) (k : String) (v : Nat) : DStr := aSet d k v

/-- `d[k] = v` on `idx2token` / `idx2tag`. -/
def dSetNat (d : DNat) (k : Nat) (v : String) : DNat := aSet d k v

/-- `defaultdict(lambda: 0).__getitem__`: returns the stored value and the
(possibly enlarged) dict.  A miss *inserts* `(k, 0)`. -/
def ddGetitem (d : DStr) (k : String) : Nat × DStr :=
  match dFind d k with
  | some v => (v, d)
  | none => (0, d ++ [(k, 0)])

/-- The state built up by `build_dict`: the two dicts and the running
`index` counter. -/
structure BuildState where
  tok2idx : DStr
  idx2tok : DNat
  index : Nat
deriving DecidableEq

/-- One iteration of the `for special_token in special_tokens` loop of
`build_dict`: `tok2idx[special_token] = index; idx2tok[index] =
special_token; index += 1`. -/
def addSpecial (st : BuildState) (s : String) : BuildState :=
  { tok2idx := dSet st.tok2idx s st.index
    idx2tok := dSetNat st.idx2tok st.index s
    index := st.index + 1 }

/-- One iteration of the inner corpus loop of `build_dict`:
`if not tok in tok2idx: tok2idx[tok] = index; idx2tok[index] = tok;
index += 1`. -/
def addTok (st : BuildState) (tok : String) : BuildState :=
  if (dFind st.tok2idx tok).isSome then st
  else
    { tok2idx := dSet st.tok2idx tok st.index
      idx2tok := dSetNat st.idx2tok st.index tok
      index := st.index + 1 }

/-- `build_dict(tokens_or_tags, special_tokens)`: assigns ids to the
special tokens in order, then to unseen corpus symbols in first-seen
order; returns `(tok2idx, idx2tok)`. -/
def build_dict (tokens_or_tags : List (List String)) (special_tokens : List String) :
    DStr × DNat :=
  let st0 : BuildState := ⟨[], [], 0⟩
  let st1 := special_tokens.foldl addSpecial st0
  let st2 := tokens_or_tags.foldl (fun st seq => seq.foldl addTok st) st1
  (st2.tok2idx, st2.idx2tok)

/-- `words2idxs` / `tags2idxs` (`[token2idx[word] for word in
tokens_list]`) with the real `defaultdict` state threading: each lookup
may insert a missing key (with value 0) into the dict. -/
def words2idxs (d : DStr) : List String → List Nat × DStr
  | [] => ([], d)
  | w :: ws =>
    let r := ddGetitem d w
    let rest := words2idxs r.2 ws
    (r.1 :: rest.1, rest.2)

/-- `idxs2tags` (plain dict `idx2tag`): a missing id raises `KeyError`,
modelled as `none`. -/
def idxs2tags (d : DNat) (idxs : List Nat) : Option (List String) :=
  idxs.mapM (dFindNat d)

/- ### Corpus reader -/

/-- Python `str.strip()`. -/
def pyStrip (s : String) : String :=
  ⟨((s.data.dropWhile Char.isWhitespace).reverse.dropWhile Char.isWhitespace).reverse⟩

/-- Helper for `str.split()` (split on whitespace runs, dropping empties). -/
def splitWSAux : List Char → List Char → List String
  | [], cur => if cur.isEmpty then [] else [⟨cur.reverse⟩]
  | c :: rest, cur =>
    if c.isWhitespace then
      if cur.isEmpty then splitWSAux rest []
      else ⟨cur.reverse⟩ :: splitWSAux rest []
    else splitWSAux rest (c :: cur)

/-- Python `str.split()` with no argument. -/
def splitWS (s : String) : List String :=
  splitWSAux s.data []

/-- Python `str.startswith`. -/
def strStarts (s p : String) : Bool :=
  p.data.isPrefixOf s.data

/-- The message of the `ValueError` raised by `token, tag = line.split()`
when the split does not have exactly two fields. -/
def valueErrorMsg (n : Nat) : String :=
  if n < 2 then "not enough values to unpack (expected 2, got " ++ toString n ++ ")"
  else "too many values to unpack (expected 2)"

/-- The loop state of `read_data`: emitted sequences plus the current
unemitted tweet. -/
structure ReadState where
  tokens : List (List String)
  tags : List (List String)
  tweetTokens : List String
  tweetTags : List String
deriving DecidableEq

/-- One iteration of `read_data`'s line loop (`line = line.strip()`
followed by the blank test, the unpacking split, and the `<URL>`/`<USR>`
normalizations). -/
def readLine (st : ReadState) (line : String) : Except String ReadState :=
  if pyStrip line = "" then
    Except.ok
      { tokens := if st.tweetTokens.isEmpty then st.tokens else st.tokens ++ [st.tweetTokens]
        tags := if st.tweetTokens.isEmpty then st.tags else st.tags ++ [st.tweetTags]
        tweetTokens := []
        tweetTags := [] }
  else
    match splitWS (pyStrip line) with
    | [token, tag] =>
      let token := if strStarts token "http://" || strStarts token "https://" then "<URL>" else token
      let token := if strStarts token "@" then "<USR>" else token
      Except.ok { st with
        tweetTokens := st.tweetTokens ++ [token]
        tweetTags := st.tweetTags ++ [tag] }
    | parts => Except.error (valueErrorMsg parts.length)

/-- `read_data`'s loop over the file's lines. -/
def readAux : List String → ReadState → Except String ReadState
  | [], st => Except.ok st
  | l :: ls, st =>
    match readLine st l with
    | Except.error e => Except.error e
    | Except.ok st' => readAux ls st'

/-- `read_data(file_path)`, with the file given as its list of lines.
Note the trailing tweet held in the loop state is *not* appended after
the loop: the function returns only the blocks that were terminated by a
blank line. -/
def read_data (lines : List String) :
    Except String (List (List String) × List (List String)) :=
  (readAux lines ⟨[], [], [], []⟩).map fun st => (st.tokens, st.tags)

/- ### Batch generator -/

/-- The index slice `order[batch_start : batch_end]` of batch `k`, with
`batch_start = k * batch_size` and `batch_end = min((k+1)*batch_size,
n_samples)`. -/
def sliceIdx (order : List Nat) (bs n k : Nat) : List Nat :=
  (order.drop (k * bs)).take (min ((k + 1) * bs) n - k * bs)

/-- `max_len_token` of one batch: the running `max(max_len_token,
len(tags[idx]))` over the batch's slice, starting from 0. -/
def batchMaxLen (tags : List (List String)) (slice : List Nat) : Nat :=
  slice.foldl (fun m idx => max m (tags.getD idx []).length) 0

/-- `x[n, :utt_len] = x_list[n]` applied to a row of the pad-filled
matrix `base`: the row overwrites the front of `base`. -/
def overwriteFront (base row : List Nat) : List Nat :=
  row.take base.length ++ base.drop row.length

/-- A generated batch: `(x, y, lengths)`. -/
abbrev Batch := List (List Nat) × List (List Nat) × List Nat

/-- The `k`-th batch produced by `batches_generator`.  Rows are the
id-mapped sequences of the batch's index slice; `x` is padded with
`token2idx['<PAD>']`, `y` with `tag2idx['O']`, both to `max_len_token`;
`lengths[n] = len(x_list[n])`.  (`words2idxs`/`tags2idxs` go through the
`defaultdict`, whose returned values coincide with `dLookup0` — see
`words2idxs_fst`.) -/
def batchK (t2i tag2i : DStr) (tokens tags : List (List String))
    (order : List Nat) (bs n k : Nat) : Batch :=
  let slice := sliceIdx order bs n k
  let xlist := slice.map fun idx => (tokens.getD idx []).map (dLookup0 t2i)
  let ylist := slice.map fun idx => (tags.getD idx []).map (dLookup0 tag2i)
  let maxLen := batchMaxLen tags slice
  let pad := dLookup0 t2i "<PAD>"
  let oId := dLookup0 tag2i "O"
  (xlist.map fun r => overwriteFront (List.replicate maxLen pad) r,
   ylist.map fun r => overwriteFront (List.replicate maxLen oId) r,
   xlist.map List.length)

/-- `n_batches = n_samples // batch_size`, plus one more when
`allow_smaller_last_batch` and the division has a remainder. -/
def nBatches (n bs : Nat) (allow : Bool) : Nat :=
  n / bs + (if allow = true ∧ n % bs ≠ 0 then 1 else 0)

/-- `batches_generator(batch_size, tokens, tags, shuffle,
allow_smaller_last_batch)`: the (finite) list of yielded batches.  The
iteration order `order` (`np.random.permutation(n_samples)` when
shuffling, else `np.arange(n_samples)`) is passed explicitly. -/
def batches_generator (t2i tag2i : DStr) (bs : Nat)
    (tokens tags : List (List String)) (order : List Nat) (allow : Bool) :
    List Batch :=
  let n := tokens.length
  (List.range (nBatches n bs allow)).map (batchK t2i tag2i tokens tags order bs n)

/- ### Model outputs, argmax decoding -/

/-- Index of the (first) maximal entry of a row of scores; `argmaxIdx []
= 0` (torch would raise, callers only use non-empty rows). -/
def argmaxIdx (r : List ℚ) : Nat :=
  (r.foldl
    (fun (acc : Nat × Nat × ℚ) q =>
      if q > acc.2.2 then (acc.1 + 1, acc.1, q) else (acc.1 + 1, acc.2.1, acc.2.2))
    (0, 0, r.headD 0)).2.1

/-- `outputs.permute(0, 2, 1)` on a `[B, L, T]` score tensor given as
nested lists: transpose the inner two axes into `[B, T, L]`. -/
def permute021 (t : List (List (List ℚ))) : List (List (List ℚ)) :=
  t.map fun m =>
    (List.range ((m.headD []).length)).map fun j => m.map fun row => row.getD j 0

/-- `outputs.data.max(1)[1]` on a `[B, T, L]` tensor: for every batch
row and every position `l`, the index along axis 1 (the tag axis) of the
maximal score. -/
def maxDim1idx3 (t : List (List (List ℚ))) : List (List Nat) :=
  t.map fun m =>
    (List.range ((m.headD []).length)).map fun l => argmaxIdx (m.map fun row => row.getD l 0)

/-- `y_pred.eq(y_batch).sum()` on two `[B, L]` int matrices: the number
of positions where they agree. -/
def countEq2 (a b : List (List Nat)) : Nat :=
  ((a.zip b).map fun p => ((p.1.zip p.2).filter fun q => decide (q.1 = q.2)).length).sum

/- ### Evaluator (`test_model`) -/

/-- The accumulator of `test_model`'s loop:
`(loss, correct, n, n_samples)`. -/
abbrev EvalAcc := ℚ × ℚ × Nat × Nat

/-- One iteration of `test_model`'s batch loop.  The black-box tagger is
`scores : x ↦ [B, L, T]` log-probabilities (the `forward` of
`NERTagger`), `crit` the abstract `criterion`.  `correct` accumulates
`y_pred.eq(y_batch).sum() / y_batch.shape[1]` (true division, so the
per-batch correct count is normalized by the batch's padded width). -/
def testStep (scores : List (List Nat) → List (List (List ℚ)))
    (crit : List (List (List ℚ)) → List (List Nat) → ℚ)
    (acc : EvalAcc) (b : Batch) : EvalAcc :=
  let x := b.1
  let y := b.2.1
  let outs := permute021 (scores x)
  let yPred := maxDim1idx3 outs
  (acc.1 + crit outs y,
   acc.2.1 + (countEq2 yPred y : ℚ) / ((y.headD []).length : ℚ),
   acc.2.2.1 + 1,
   acc.2.2.2 + x.length)

/-- `test_model(model, tokens, tags, criterion, ...)`: runs the batch
loop over `batches_generator(batch_size, tokens, tags)` (defaults:
shuffle on — hence the explicit `order` — and
`allow_smaller_last_batch=True`), then returns `(average loss,
accuracy)` with `accuracy = 100 * correct / n_samples`. -/
def test_model (t2i tag2i : DStr) (bs : Nat)
    (tokens tags : List (List String)) (order : List Nat)
    (scores : List (List Nat) → List (List (List ℚ)))
    (crit : List (List (List ℚ)) → List (List Nat) → ℚ) : ℚ × ℚ :=
  let batches := batches_generator t2i tag2i bs tokens tags order true
  let fin := batches.foldl (testStep scores crit) (0, 0, 0, 0)
  (fin.1 / (fin.2.2.1 : ℚ), 100 * fin.2.1 / (fin.2.2.2 : ℚ))

/- ### Training loop (`train_one_epoch`) -/

/-- The model objects of the notebook: parameters plus the
`training`-mode flag toggled by `.train()` / `.eval()`. -/
structure TagModel where
  params : List ℚ
  training : Bool
deriving DecidableEq

/-- One iteration of `train_one_epoch`'s batch loop, given the abstract
forward `fwd` (a tagger's scores as a function of its parameters), the
abstract `criterion`, and the abstract `optimizer.step()` update
`optStep` (the optimizer was built over the *global* `ner_tagger`'s
parameters, so that is what it updates).  The forward pass reads the
globally bound `ner_tagger` carried in the accumulator — the `model`
argument of `train_one_epoch` is nowhere consulted. -/
def trainStep (fwd : List ℚ → List (List Nat) → List (List (List ℚ)))
    (crit : List (List (List ℚ)) → List (List Nat) → ℚ)
    (optStep : List ℚ → ℚ → List ℚ)
    (acc : TagModel × ℚ × List ℚ) (b : Batch) : TagModel × ℚ × List ℚ :=
  let x := b.1
  let y := b.2.1
  let outs := permute021 (fwd acc.1.params x)
  let loss := crit outs y
  let nerTagger' := { acc.1 with params := optStep acc.1.params loss }
  let yPred := maxDim1idx3 outs
  (nerTagger', acc.2.1 + (countEq2 yPred y : ℚ) / ((y.headD []).length : ℚ),
   acc.2.2 ++ [loss])

/-- `train_one_epoch(model, ...)`: sets `model.train()`, then folds the
batch loop (forward through the global `ner_tagger`, loss, backward,
optimizer step, metric accumulation).  Returns the updated global
tagger, the `model` argument after its `.train()` call, the per-batch
losses, and the accumulated `correct`. -/
def train_one_epoch (fwd : List ℚ → List (List Nat) → List (List (List ℚ)))
    (crit : List (List (List ℚ)) → List (List Nat) → ℚ)
    (optStep : List ℚ → ℚ → List ℚ)
    (nerTagger model : TagModel) (batches : List Batch) :
    TagModel × TagModel × List ℚ × ℚ :=
  let model' := { model with training := true }
  let fin := batches.foldl (trainStep fwd crit optStep) (nerTagger, 0, [])
  (fin.1, model', fin.2.2, fin.2.1)

/- ### Predictor (`predict_sentence`) -/

/-- Rose-tree model of a torch tensor of rationals, used to give
`Tensor.squeeze()` (which removes *all* axes of size 1, changing the
rank) a single value type. -/
inductive Tensor where
  | scalar : ℚ → Tensor
  | dim : List Tensor → Tensor

/-- A 1-D tensor from a list of entries. -/
def tensor1 (r : List ℚ) : Tensor :=
  Tensor.dim (r.map Tensor.scalar)

/-- `.squeeze()` of a 1-D tensor `[c]`: a scalar when `c = 1`. -/
def squeeze1 (r : List ℚ) : Tensor :=
  match r with
  | [q] => Tensor.scalar q
  | _ => tensor1 r

/-- `.squeeze()` of a 2-D tensor `[b, c]` (given as rows): drops each
axis that has size 1. -/
def squeeze2 (m : List (List ℚ)) : Tensor :=
  match m with
  | [r] => squeeze1 r
  | _ =>
    if (m.headD []).length = 1 then Tensor.dim (m.map fun r => Tensor.scalar (r.headD 0))
    else Tensor.dim (m.map tensor1)

/-- `.squeeze()` of a 3-D tensor `[a, b, c]`: drops each axis that has
size 1 (rectangularity of the input is the caller's obligation, as in
torch). -/
def squeeze3 (t : List (List (List ℚ))) : Tensor :=
  match t with
  | [m] => squeeze2 m
  | _ =>
    let b := (t.headD []).length = 1
    let c := ((t.headD []).headD []).length = 1
    if b ∧ c then Tensor.dim (t.map fun m => Tensor.scalar ((m.headD []).headD 0))
    else if b then Tensor.dim (t.map fun m => tensor1 (m.headD []))
    else if c then Tensor.dim (t.map fun m => Tensor.dim (m.map fun r => Tensor.scalar (r.headD 0)))
    else Tensor.dim (t.map fun m => Tensor.dim (m.map tensor1))

/-- A `dim`-node entry read back as a scalar (ragged inputs error). -/
def asScalar : Tensor → Except String ℚ
  | Tensor.scalar q => Except.ok q
  | Tensor.dim _ => Except.error "ragged tensor"

/-- One row's contribution to `.max(1)[1]`: a scalar row means the
squeezed tensor had rank below 2 (torch's `IndexError: Dimension out of
range`); an empty row is torch's empty-reduction error; otherwise the
argmax index. -/
def rowArgmax : Tensor → Except String Nat
  | Tensor.scalar _ =>
    Except.error "Dimension out of range (expected to be in range of [-1, 0], but got 1)"
  | Tensor.dim cells => do
    let qs ← cells.mapM asScalar
    if qs.isEmpty then Except.error "max(): Expected reduction dim 1 to have non-zero size."
    else Except.ok (argmaxIdx qs)

/-- `.max(1)[1]`: argmax indices along axis 1.  On a tensor of rank
less than 2 this is torch's `IndexError: Dimension out of range`. -/
def maxDim1 (t : Tensor) : Except String (List Nat) :=
  match t with
  | Tensor.scalar _ => Except.error "Dimension out of range (expected to be in range of [-1, 0], but got 1)"
  | Tensor.dim rows => rows.mapM rowArgmax

/-- `y_pred.eq(y_true).sum()` on two 1-D int tensors, with torch's
size-1 broadcasting; mismatched non-broadcastable sizes error. -/
def tensorEqSum (a b : List Nat) : Except String Nat :=
  if a.length = b.length then
    Except.ok (((a.zip b).filter fun q => decide (q.1 = q.2)).length)
  else if b.length = 1 then
    Except.ok ((a.filter fun x => decide (x = b.headD 0)).length)
  else if a.length = 1 then
    Except.ok ((b.filter fun x => decide (x = a.headD 0)).length)
  else Except.error "The size of tensor a must match the size of tensor b"

/-- `predict_sentence(sentence, tags, verbosity)`.  The black-box
`ner_tagger` forward is `tagger : [1, L] index batch ↦ [1, L, T] score
tensor`.  `trueTagsGlobal` is the notebook-global variable `true_tags`:
the reported `correct` count is computed from it, not from the `tags`
argument (the `tags` argument only gates the comparison).  Returns the
decoded tag strings and, when `tags` is truthy, the reported count. -/
def predict_sentence (tagger : List (List Nat) → List (List (List ℚ)))
    (t2i : DStr) (i2tag : DNat) (tag2i : DStr)
    (trueTagsGlobal : List String) (sentence : List String)
    (tags : List String) : Except String (List String × Option Nat) :=
  match maxDim1 (squeeze3 (tagger [sentence.map (dLookup0 t2i)])) with
  | Except.error e => Except.error e
  | Except.ok yPred =>
    match idxs2tags i2tag yPred with
    | none => Except.error "KeyError"
    | some res =>
      if tags.isEmpty then Except.ok (res, none)
      else
        match tensorEqSum yPred (trueTagsGlobal.map (dLookup0 tag2i)) with
        | Except.error e => Except.error e
        | Except.ok correct => Except.ok (res, some correct)

/- ### Concrete instances used by counterexamples and witnesses -/

/-- A small token vocabulary as built by
`build_dict([["a","b"]], ["<UNK>","<PAD>"])`. -/
def exT2i : DStr := [("<UNK>", 0), ("<PAD>", 1), ("a", 2), ("b", 3)]

/-- A small tag vocabulary as built by `build_dict([["B"]], ["O"])`. -/
def exTag2i : DStr := [("O", 0), ("B", 1)]

/-- The inverse tag mapping of `exTag2i`. -/
def exI2tag : DNat := [(0, "O"), (1, "B")]

/-- A fixed black-box tagger output for a two-token sentence:
scores `[1, 2, 2]`, argmax tags `[O, B]`. -/
def exTagger2 : List (List Nat) → List (List (List ℚ)) := fun _ => [[[9, 1], [1, 9]]]

/-- A fixed black-box tagger output for a one-token sentence:
scores `[1, 1, 2]`. -/
def exTagger1 : List (List Nat) → List (List (List ℚ)) := fun _ => [[[1, 9]]]

/-- Three example sequences of lengths 2, 5 and 3 over the `exT2i`
vocabulary. -/
def exTokens : List (List String) := [["a", "b"], ["a", "b", "a", "b", "a"], ["b", "a", "b"]]

/-- The tags of `exTokens`, aligned 1:1. -/
def exTags : List (List String) := [["O", "B"], ["B", "O", "O", "O", "B"], ["O", "O", "B"]]

/-- A constant black-box batch tagger: every position scores `[1, 0]`
over two tags. -/
def exScores : List (List Nat) → List (List (List ℚ)) :=
  fun x => x.map fun row => row.map fun _ => [1, 0]

/-- A trivial criterion (the accuracy theorems do not depend on it). -/
def exCrit : List (List (List ℚ)) → List (List Nat) → ℚ := fun _ _ => 0

/-- The invariant maintained by `build_dict`'s construction loop: every
binding of `tok2idx` is mirrored in `idx2tok` and vice versa, and all
assigned ids are below the running `index`. -/
def InvBD (st : BuildState) : Prop :=
  (∀ p ∈ st.tok2idx, p.2 < st.index ∧ dFindNat st.idx2tok p.2 = some p.1) ∧
  (∀ q ∈ st.idx2tok, q.1 < st.index ∧ dFind st.tok2idx q.2 = some q.1)

/- ## Theorems -/

/- ### Dictionary helper lemmas -/

theorem aFind_append {κ ν : Type} [DecidableEq κ] (d₁ d₂ : List (κ × ν)) (k : κ) :
    aFind (d₁ ++ d₂) k = (aFind d₁ k).or (aFind d₂ k) := by
  unfold aFind
  rw [List.find?_append]
  cases d₁.find? fun p => decide (p.1 = k) <;> simp

theorem aFind_singleton_self {κ ν : Type} [DecidableEq κ] (k : κ) (v : ν) :
    aFind [(k, v)] k = some v := by
  unfold aFind
  simp [List.find?]

theorem aFind_singleton_ne {κ ν : Type} [DecidableEq κ] (k k' : κ) (v : ν) (h : k' ≠ k) :
    aFind [(k, v)] k' = none := by
  unfold aFind
  simp only [List.find?]
  rw [decide_eq_false fun he => h he.symm]
  rfl

theorem aFind_eq_none {κ ν : Type} [DecidableEq κ] (d : List (κ × ν)) (k : κ) :
    aFind d k = none ↔ ∀ p ∈ d, p.1 ≠ k := by
  unfold aFind
  simp [List.find?_eq_none]

theorem aSet_of_absent {κ ν : Type} [DecidableEq κ] (d : List (κ × ν)) (k : κ) (v : ν)
    (h : aFind d k = none) : aSet d k v = d ++ [(k, v)] := by
  unfold aSet
  rw [if_neg]
  rw [List.any_eq_true]
  rintro ⟨p, hp, hpk⟩
  exact (aFind_eq_none d k).1 h p hp (of_decide_eq_true hpk)

theorem aFind_map_overwrite_self {κ ν : Type} [DecidableEq κ] (k : κ) (v : ν) :
    ∀ d : List (κ × ν), (d.any fun p => decide (p.1 = k)) = true →
      aFind (d.map fun p => if p.1 = k then (k, v) else p) k = some v := by
  intro d
  induction d with
  | nil => intro h; simp at h
  | cons p ps ih =>
    intro h
    by_cases hp : p.1 = k
    · simp only [List.map_cons, if_pos hp]
      unfold aFind
      rw [List.find?_cons_of_pos _ (by simp)]
      rfl
    · simp only [List.map_cons, if_neg hp]
      unfold aFind at ih ⊢
      rw [List.find?_cons_of_neg _ (by simpa using hp)]
      apply ih
      simpa [hp] using h

theorem aFind_map_overwrite_ne {κ ν : Type} [DecidableEq κ] (k k' : κ) (v : ν) (hne : k' ≠ k) :
    ∀ d : List (κ × ν),
      aFind (d.map fun p => if p.1 = k then (k, v) else p) k' = aFind d k' := by
  intro d
  induction d with
  | nil => rfl
  | cons p ps ih =>
    by_cases hp : p.1 = k
    · simp only [List.map_cons, if_pos hp]
      unfold aFind at ih ⊢
      rw [List.find?_cons_of_neg _ (by simpa using fun he => hne he.symm),
        List.find?_cons_of_neg _ (by rw [hp]; simpa using fun he => hne he.symm)]
      exact ih
    · simp only [List.map_cons, if_neg hp]
      unfold aFind at ih ⊢
      by_cases hk' : p.1 = k'
      · rw [List.find?_cons_of_pos _ (by simpa using hk'),
          List.find?_cons_of_pos _ (by simpa using hk')]
      · rw [List.find?_cons_of_neg _ (by simpa using hk'),
          List.find?_cons_of_neg _ (by simpa using hk')]
        exact ih

theorem aFind_aSet_self {κ ν : Type} [DecidableEq κ] (d : List (κ × ν)) (k : κ) (v : ν) :
    aFind (aSet d k v) k = some v := by
  unfold aSet
  by_cases hany : (d.any fun p => decide (p.1 = k)) = true
  · rw [if_pos hany]
    exact aFind_map_overwrite_self k v d hany
  · rw [if_neg hany]
    rw [aFind_append]
    have hnone : aFind d k = none := by
      rw [aFind_eq_none]
      intro p hp hpk
      exact hany (List.any_eq_true.2 ⟨p, hp, decide_eq_true hpk⟩)
    rw [hnone, aFind_singleton_self]
    rfl

theorem aFind_aSet_ne {κ ν : Type} [DecidableEq κ] (d : List (κ × ν)) (k k' : κ) (v : ν)
    (hne : k' ≠ k) : aFind (aSet d k v) k' = aFind d k' := by
  unfold aSet
  by_cases hany : (d.any fun p => decide (p.1 = k)) = true
  · rw [if_pos hany]
    exact aFind_map_overwrite_ne k k' v hne d
  · rw [if_neg hany]
    rw [aFind_append, aFind_singleton_ne k k' v hne]
    cases aFind d k' <;> simp

theorem ddGetitem_fst (d : DStr) (k : String) :
    (ddGetitem d k).1 = dLookup0 d k := by
  unfold ddGetitem dLookup0
  cases dFind d k <;> simp

theorem dLookup0_ddGetitem (d : DStr) (k k' : String) :
    dLookup0 (ddGetitem d k).2 k' = dLookup0 d k' := by
  unfold ddGetitem
  cases h : dFind d k with
  | some v => simp
  | none =>
    simp only [dLookup0]
    show ((aFind (d ++ [(k, 0)]) k').getD 0 : Nat) = (aFind d k').getD 0
    rw [aFind_append]
    by_cases hk : k' = k
    · subst hk
      rw [show aFind d k' = (none : Option Nat) from h, aFind_singleton_self]
      rfl
    · rw [aFind_singleton_ne k k' 0 hk]
      cases aFind d k' <;> simp

theorem words2idxs_fst (toks : List String) :
    ∀ d : DStr, (words2idxs d toks).1 = toks.map (dLookup0 d) := by
  induction toks with
  | nil => intro d; rfl
  | cons w ws ih =>
    intro d
    show ((ddGetitem d w).1 :: (words2idxs (ddGetitem d w).2 ws).1) = _
    rw [ddGetitem_fst, ih]
    simp only [List.map_cons, List.cons.injEq, true_and]
    apply List.map_congr_left
    intro x _
    exact dLookup0_ddGetitem d w x

/- ### C3: "immutable vocabulary" -/

/-- C3 counterexample.  The claim "no subsequent lookup operation
changes the symbol-to-id mapping's contents or enlarges its set of
keys" is false: after `build_dict([["hello"]], ["<UNK>","<PAD>"])`, the
mapping has 3 keys and `"world"` is absent, yet the lookup performed by
`words2idxs` on `["world"]` leaves the mapping with 4 keys, `"world"`
now bound to 0. -/
theorem C3_lookup_enlarges_cex :
    dFind ((build_dict [["hello"]] ["<UNK>", "<PAD>"]).1) "world" = none ∧
    ((build_dict [["hello"]] ["<UNK>", "<PAD>"]).1).length = 3 ∧
    ((words2idxs ((build_dict [["hello"]] ["<UNK>", "<PAD>"]).1) ["world"]).2).length = 4 ∧
    dFind ((words2idxs ((build_dict [["hello"]] ["<UNK>", "<PAD>"]).1) ["world"]).2) "world"
      = some 0 := by
  decide

/-- C3 (amended).  The `defaultdict` lookup of an absent symbol returns
0 and *inserts* the symbol with id 0, enlarging the key set; a lookup of
a present symbol changes nothing; and in either case the symbol-to-id
*value* function is unchanged by a lookup. -/
theorem C3_amended_lookup_inserts (d : DStr) (k : String) :
    (dFind d k = none →
      (ddGetitem d k).1 = 0 ∧ (ddGetitem d k).2 = d ++ [(k, 0)]) ∧
    (∀ v, dFind d k = some v → ddGetitem d k = (v, d)) ∧
    (∀ k', dLookup0 (ddGetitem d k).2 k' = dLookup0 d k') := by
  refine ⟨fun h => ?_, fun v h => ?_, fun k' => dLookup0_ddGetitem d k k'⟩
  · unfold ddGetitem
    rw [h]
    exact ⟨rfl, rfl⟩
  · unfold ddGetitem
    rw [h]

/-- Witness for `C3_amended_lookup_inserts` at the concrete vocabulary
`exT2i` and the absent key `"world"`. -/
theorem C3_amended_lookup_inserts_witness :
    (ddGetitem exT2i "world").1 = 0 ∧ (ddGetitem exT2i "world").2 = exT2i ++ [("world", 0)] :=
  (C3_amended_lookup_inserts exT2i "world").1 (by decide)

/- ### C1: trailing sequence with no terminating blank line -/

theorem readAux_append (l₁ l₂ : List String) (st : ReadState) :
    readAux (l₁ ++ l₂) st =
      match readAux l₁ st with
      | Except.error e => Except.error e
      | Except.ok st' => readAux l₂ st' := by
  induction l₁ generalizing st with
  | nil => rfl
  | cons l ls ih =>
    show readAux (l :: (ls ++ l₂)) st = _
    simp only [readAux]
    cases readLine st l with
    | error e => rfl
    | ok st' => exact ih st'

/-- C1 counterexample.  A one-line corpus holding the valid pair
`hello O` and no terminating blank line: the loop ends holding the
block in its unflushed state, and `read_data` returns *empty* token and
tag lists — the trailing sequence is not emitted. -/
theorem C1_trailing_dropped_cex :
    read_data ["hello O"] = Except.ok ([], []) ∧
    readAux ["hello O"] ⟨[], [], [], []⟩ = Except.ok ⟨[], [], ["hello"], ["O"]⟩ := by
  decide

/-- C1 (amended).  `read_data` emits only the blocks terminated by a
blank line: the trailing block left in the loop state is dropped, and it
is emitted exactly when a terminating blank line is appended to the
file. -/
theorem C1_amended_trailing_dropped (lines : List String) (st : ReadState)
    (h : readAux lines ⟨[], [], [], []⟩ = Except.ok st) :
    read_data lines = Except.ok (st.tokens, st.tags) ∧
    read_data (lines ++ [""]) =
      Except.ok (if st.tweetTokens.isEmpty then (st.tokens, st.tags)
        else (st.tokens ++ [st.tweetTokens], st.tags ++ [st.tweetTags])) := by
  constructor
  · unfold read_data
    rw [h]
    rfl
  · unfold read_data
    rw [readAux_append, h]
    show (readAux [""] st).map _ = _
    have hblank : readLine st "" = Except.ok
        { tokens := if st.tweetTokens.isEmpty then st.tokens else st.tokens ++ [st.tweetTokens]
          tags := if st.tweetTokens.isEmpty then st.tags else st.tags ++ [st.tweetTags]
          tweetTokens := []
          tweetTags := [] } := rfl
    simp only [readAux, hblank]
    by_cases hc : st.tweetTokens.isEmpty <;> simp [hc, Except.map]

/-- Witness for `C1_amended_trailing_dropped` on the one-line corpus
`hello O`. -/
theorem C1_amended_trailing_dropped_witness :
    read_data ["hello O"] = Except.ok (([] : List (List String)), ([] : List (List String))) ∧
    read_data (["hello O"] ++ [""]) =
      Except.ok (if ([("hello" : String)] : List String).isEmpty
        then (([] : List (List String)), ([] : List (List String)))
        else ([["hello"]], [["O"]])) :=
  C1_amended_trailing_dropped ["hello O"] ⟨[], [], ["hello"], ["O"]⟩ (by decide)

/- ### C9: malformed corpus lines -/

/-- C9 counterexample.  Two different malformed lines produce the *same*
error value: the raised unpacking `ValueError` does not identify the
offending line. -/
theorem C9_no_line_identification_cex :
    read_data ["foo bar baz"] = Except.error "too many values to unpack (expected 2)" ∧
    read_data ["qux quux corge"] = Except.error "too many values to unpack (expected 2)" ∧
    ("foo bar baz" : String) ≠ "qux quux corge" := by
  decide

/-- C9 (amended).  A non-blank line that does not split into exactly two
whitespace-separated fields is a hard error aborting the read — but the
error is the unpacking `ValueError`, whose message depends only on the
field count, not a `ParseError` identifying the offending line. -/
theorem C9_amended_malformed_aborts (pre post : List String) (line : String) (st : ReadState)
    (hok : readAux pre ⟨[], [], [], []⟩ = Except.ok st)
    (hnb : pyStrip line ≠ "")
    (hmal : (splitWS (pyStrip line)).length ≠ 2) :
    read_data (pre ++ line :: post) =
      Except.error (valueErrorMsg (splitWS (pyStrip line)).length) := by
  have hline : readLine st line = Except.error (valueErrorMsg (splitWS (pyStrip line)).length) := by
    unfold readLine
    rw [if_neg hnb]
    rcases hs : splitWS (pyStrip line) with _ | ⟨a, _ | ⟨b, _ | ⟨c, rest⟩⟩⟩
    · rfl
    · rfl
    · rw [hs] at hmal
      exact absurd rfl hmal
    · rfl
  unfold read_data
  rw [readAux_append, hok]
  simp only [readAux, hline]
  rfl

/-- Witness for `C9_amended_malformed_aborts`: a three-field line after
one well-formed line aborts the read with the fixed arity message. -/
theorem C9_amended_malformed_aborts_witness :
    read_data (["Ian B-PER"] ++ "foo bar baz" :: ["x O"]) =
      Except.error (valueErrorMsg (splitWS (pyStrip "foo bar baz")).length) :=
  C9_amended_malformed_aborts ["Ian B-PER"] ["x O"] "foo bar baz"
    ⟨[], [], ["Ian"], ["B-PER"]⟩ (by decide) (by decide) (by decide)

/- ### C6: train_one_epoch ignores its model argument -/

/-- C6.  In `train_one_epoch` the forward pass, the loss, the gradient
update of the global tagger and the accumulated metrics all come from
the globally bound `ner_tagger`; the `model` argument is only touched by
`model.train()`.  Hence the full result with model parameters `p₁` is
the result with any other parameters `p₂`, except for the returned model
object, which is the passed model with its training flag set. -/
theorem C6_forward_ignores_model_params
    (fwd : List ℚ → List (List Nat) → List (List (List ℚ)))
    (crit : List (List (List ℚ)) → List (List Nat) → ℚ)
    (optStep : List ℚ → ℚ → List ℚ)
    (nerTagger : TagModel) (batches : List Batch) (p₁ p₂ : List ℚ) (b : Bool) :
    train_one_epoch fwd crit optStep nerTagger ⟨p₁, b⟩ batches =
      ((train_one_epoch fwd crit optStep nerTagger ⟨p₂, b⟩ batches).1,
       ⟨p₁, true⟩,
       (train_one_epoch fwd crit optStep nerTagger ⟨p₂, b⟩ batches).2.2) := rfl

/- ### build_dict invariants (C7, C8) -/

theorem foldl_preserve {α β : Type} (P : α → Prop) (f : α → β → α) :
    ∀ (l : List β) (st : α), P st → (∀ st' x, x ∈ l → P st' → P (f st' x)) →
      P (l.foldl f st) := by
  intro l
  induction l with
  | nil => intro st h _; exact h
  | cons x xs ih =>
    intro st h hstep
    exact ih (f st x) (hstep st x (List.mem_cons_self x xs) h)
      fun st' y hy hp => hstep st' y (List.mem_cons_of_mem x hy) hp

theorem mem_of_aFind {κ ν : Type} [DecidableEq κ] {d : List (κ × ν)} {k : κ} {v : ν}
    (h : aFind d k = some v) : (k, v) ∈ d := by
  unfold aFind at h
  cases hf : d.find? fun p => decide (p.1 = k) with
  | none => rw [hf] at h; exact absurd h (by simp)
  | some p =>
    rw [hf] at h
    have hm := List.mem_of_find?_eq_some hf
    have hfp := List.find?_some hf
    have hk : p.1 = k := of_decide_eq_true hfp
    have hv : p.2 = v := by simpa using h
    have hp : p = (k, v) := by
      cases p
      simp_all
    rwa [hp] at hm

theorem InvBD_fresh (st : BuildState) (s : String)
    (habs : dFind st.tok2idx s = none) (hinv : InvBD st) :
    InvBD ⟨st.tok2idx ++ [(s, st.index)], st.idx2tok ++ [(st.index, s)], st.index + 1⟩ := by
  obtain ⟨h1, h2⟩ := hinv
  constructor
  · intro p hp
    rcases List.mem_append.1 hp with hp | hp
    · obtain ⟨hlt, hfind⟩ := h1 p hp
      refine ⟨Nat.lt_succ_of_lt hlt, ?_⟩
      show aFind (st.idx2tok ++ [(st.index, s)]) p.2 = some p.1
      rw [aFind_append, show aFind st.idx2tok p.2 = some p.1 from hfind]
      rfl
    · have hps : p = (s, st.index) := by simpa using hp
      subst hps
      refine ⟨Nat.lt_succ_self _, ?_⟩
      show aFind (st.idx2tok ++ [(st.index, s)]) st.index = some s
      rw [aFind_append]
      have hnone : aFind st.idx2tok st.index = none := by
        rw [aFind_eq_none]
        intro q hq
        exact Nat.ne_of_lt (h2 q hq).1
      rw [hnone, aFind_singleton_self]
      rfl
  · intro q hq
    rcases List.mem_append.1 hq with hq | hq
    · obtain ⟨hlt, hfind⟩ := h2 q hq
      refine ⟨Nat.lt_succ_of_lt hlt, ?_⟩
      show aFind (st.tok2idx ++ [(s, st.index)]) q.2 = some q.1
      rw [aFind_append, show aFind st.tok2idx q.2 = some q.1 from hfind]
      rfl
    · have hqs : q = (st.index, s) := by simpa using hq
      subst hqs
      refine ⟨Nat.lt_succ_self _, ?_⟩
      show aFind (st.tok2idx ++ [(s, st.index)]) s = some st.index
      rw [aFind_append, show aFind st.tok2idx s = none from habs, aFind_singleton_self]
      rfl

theorem InvBD_addTok (st : BuildState) (tok : String) (hinv : InvBD st) :
    InvBD (addTok st tok) := by
  unfold addTok
  by_cases h : (dFind st.tok2idx tok).isSome
  · rw [if_pos h]
    exact hinv
  · rw [if_neg h]
    have habs : dFind st.tok2idx tok = none := Option.not_isSome_iff_eq_none.1 h
    have hidx : aFind st.idx2tok st.index = none := by
      rw [aFind_eq_none]
      intro q hq
      exact Nat.ne_of_lt (hinv.2 q hq).1
    show InvBD ⟨dSet st.tok2idx tok st.index, dSetNat st.idx2tok st.index tok, st.index + 1⟩
    rw [show dSet st.tok2idx tok st.index = st.tok2idx ++ [(tok, st.index)] from
        aSet_of_absent _ _ _ habs,
      show dSetNat st.idx2tok st.index tok = st.idx2tok ++ [(st.index, tok)] from
        aSet_of_absent _ _ _ hidx]
    exact InvBD_fresh st tok habs hinv

theorem InvBD_specials : ∀ (specials : List String) (st : BuildState),
    specials.Nodup → InvBD st → (∀ s ∈ specials, dFind st.tok2idx s = none) →
    InvBD (specials.foldl addSpecial st) := by
  intro specials
  induction specials with
  | nil => intro st _ hinv _; exact hinv
  | cons s rest ih =>
    intro st hnd hinv habs
    simp only [List.foldl_cons]
    have hs : dFind st.tok2idx s = none := habs s (List.mem_cons_self s rest)
    have hidx : aFind st.idx2tok st.index = none := by
      rw [aFind_eq_none]
      intro q hq
      exact Nat.ne_of_lt (hinv.2 q hq).1
    have heq : addSpecial st s =
        ⟨st.tok2idx ++ [(s, st.index)], st.idx2tok ++ [(st.index, s)], st.index + 1⟩ := by
      unfold addSpecial
      rw [show dSet st.tok2idx s st.index = st.tok2idx ++ [(s, st.index)] from
          aSet_of_absent _ _ _ hs,
        show dSetNat st.idx2tok st.index s = st.idx2tok ++ [(st.index, s)] from
          aSet_of_absent _ _ _ hidx]
    rw [heq]
    apply ih _ (List.Nodup.of_cons hnd) (InvBD_fresh st s hs hinv)
    intro t ht
    show aFind (st.tok2idx ++ [(s, st.index)]) t = none
    rw [aFind_append,
      show aFind st.tok2idx t = none from habs t (List.mem_cons_of_mem s ht),
      aFind_singleton_ne s t _ fun hts => (List.nodup_cons.1 hnd).1 (hts ▸ ht)]
    rfl

theorem InvBD_corpus (seqs : List (List String)) (st : BuildState) (hinv : InvBD st) :
    InvBD (seqs.foldl (fun st seq => seq.foldl addTok st) st) := by
  apply foldl_preserve InvBD _ seqs st hinv
  intro st' seq _ hp
  exact foldl_preserve InvBD addTok seq st' hp fun st'' tok _ hp' => InvBD_addTok st'' tok hp'

/-- C7.  When the reserved list has no duplicates, the two mappings
returned by `build_dict` are exact inverses over the assigned domain:
`idx2tok[tok2idx[s]] = s` for every assigned symbol `s`, and
`tok2idx[idx2tok[i]] = i` for every assigned id `i`. -/
theorem C7_roundtrip_inverse (corpus : List (List String)) (specials : List String)
    (hnd : specials.Nodup) :
    (∀ s v, dFind (build_dict corpus specials).1 s = some v →
      dFindNat (build_dict corpus specials).2 v = some s) ∧
    (∀ i s, dFindNat (build_dict corpus specials).2 i = some s →
      dFind (build_dict corpus specials).1 s = some i) := by
  have hfin : InvBD (corpus.foldl (fun st seq => seq.foldl addTok st)
      (specials.foldl addSpecial ⟨[], [], 0⟩)) := by
    apply InvBD_corpus
    apply InvBD_specials specials _ hnd
    · exact ⟨fun p hp => absurd hp (List.not_mem_nil p),
        fun q hq => absurd hq (List.not_mem_nil q)⟩
    · intro s _
      rfl
  constructor
  · intro s v hsv
    exact (hfin.1 (s, v) (mem_of_aFind hsv)).2
  · intro i s his
    exact (hfin.2 (i, s) (mem_of_aFind his)).2

/-- Witness for `C7_roundtrip_inverse`: the vocabulary of
`build_dict([["hello"]], ["<UNK>","<PAD>"])` round-trips `"hello"`
(id 2) both ways. -/
theorem C7_roundtrip_inverse_witness :
    dFindNat (build_dict [["hello"]] ["<UNK>", "<PAD>"]).2 2 = some "hello" ∧
    dFind (build_dict [["hello"]] ["<UNK>", "<PAD>"]).1 "hello" = some 2 :=
  ⟨(C7_roundtrip_inverse [["hello"]] ["<UNK>", "<PAD>"] (by decide)).1 "hello" 2 (by decide),
   (C7_roundtrip_inverse [["hello"]] ["<UNK>", "<PAD>"] (by decide)).2 2 "hello" (by decide)⟩

/- ### C8: unknown tokens resolve to the reserved unknown id 0 -/

/-- C8.  With the reserved list headed by `<UNK>` (and `<UNK>` not
repeated), a token `t` that was assigned no id during vocabulary
construction looks up — via the `defaultdict` read performed by
`words2idxs` — to the value 0, which is exactly the id of `<UNK>`;
no error is raised (the lookup is total). -/
theorem C8_unknown_lookup_zero (corpus : List (List String)) (rest : List String) (t : String)
    (hnr : "<UNK>" ∉ rest)
    (habs : dFind (build_dict corpus ("<UNK>" :: rest)).1 t = none) :
    (ddGetitem (build_dict corpus ("<UNK>" :: rest)).1 t).1 = 0 ∧
    (words2idxs (build_dict corpus ("<UNK>" :: rest)).1 [t]).1 = [0] ∧
    dFind (build_dict corpus ("<UNK>" :: rest)).1 "<UNK>" = some 0 := by
  have hval : (ddGetitem (build_dict corpus ("<UNK>" :: rest)).1 t).1 = 0 := by
    rw [ddGetitem_fst]
    unfold dLookup0
    rw [habs]
    rfl
  refine ⟨hval, ?_, ?_⟩
  · show ((ddGetitem (build_dict corpus ("<UNK>" :: rest)).1 t).1
        :: (words2idxs (ddGetitem (build_dict corpus ("<UNK>" :: rest)).1 t).2 []).1) = [0]
    rw [hval]
    rfl
  · show dFind (corpus.foldl (fun st seq => seq.foldl addTok st)
      (List.foldl addSpecial (addSpecial ⟨[], [], 0⟩ "<UNK>") rest)).tok2idx "<UNK>" = some 0
    have hstep1 : ∀ (st' : BuildState) (s : String), s ∈ rest →
        dFind st'.tok2idx "<UNK>" = some 0 →
        dFind (addSpecial st' s).tok2idx "<UNK>" = some 0 := by
      intro st' s hs hp
      show aFind (aSet st'.tok2idx s st'.index) "<UNK>" = some 0
      have hne : ("<UNK>" : String) ≠ s := fun he => hnr (he ▸ hs)
      rw [aFind_aSet_ne _ _ _ _ hne]
      exact hp
    have h1 : dFind (List.foldl addSpecial (addSpecial ⟨[], [], 0⟩ "<UNK>") rest).tok2idx
        "<UNK>" = some 0 :=
      foldl_preserve (fun st => dFind st.tok2idx "<UNK>" = some 0) addSpecial rest
        (addSpecial ⟨[], [], 0⟩ "<UNK>") (by decide) hstep1
    have hstep2 : ∀ (st'' : BuildState) (tok : String),
        dFind st''.tok2idx "<UNK>" = some 0 →
        dFind (addTok st'' tok).tok2idx "<UNK>" = some 0 := by
      intro st'' tok hp'
      unfold addTok
      by_cases h : (dFind st''.tok2idx tok).isSome
      · rw [if_pos h]
        exact hp'
      · rw [if_neg h]
        show aFind (aSet st''.tok2idx tok st''.index) "<UNK>" = some 0
        have hne : ("<UNK>" : String) ≠ tok := by
          intro he
          rw [← he] at h
          exact h (by rw [show dFind st''.tok2idx "<UNK>" = some 0 from hp']; rfl)
        rw [aFind_aSet_ne _ _ _ _ hne]
        exact hp'
    exact foldl_preserve (fun st => dFind st.tok2idx "<UNK>" = some 0)
      (fun st seq => seq.foldl addTok st) corpus
      (List.foldl addSpecial (addSpecial ⟨[], [], 0⟩ "<UNK>") rest) h1
      fun st' seq _ hp =>
        foldl_preserve (fun st => dFind st.tok2idx "<UNK>" = some 0) addTok seq st' hp
          fun st'' tok _ hp' => hstep2 st'' tok hp'

/-- Witness for `C8_unknown_lookup_zero` at a concrete vocabulary and
the unseen token `"world"`. -/
theorem C8_unknown_lookup_zero_witness :
    (ddGetitem (build_dict [["hello"]] ("<UNK>" :: ["<PAD>"])).1 "world").1 = 0 ∧
    (words2idxs (build_dict [["hello"]] ("<UNK>" :: ["<PAD>"])).1 ["world"]).1 = [0] ∧
    dFind (build_dict [["hello"]] ("<UNK>" :: ["<PAD>"])).1 "<UNK>" = some 0 :=
  C8_unknown_lookup_zero [["hello"]] ["<PAD>"] "world" (by decide) (by decide)

/- ### C4: test_model's double-normalized accuracy -/

theorem evalFold_correct (scores : List (List Nat) → List (List (List ℚ)))
    (crit : List (List (List ℚ)) → List (List Nat) → ℚ) :
    ∀ (batches : List Batch) (init : EvalAcc),
      (batches.foldl (testStep scores crit) init).2.1 =
        init.2.1 + (batches.map fun b =>
          (countEq2 (maxDim1idx3 (permute021 (scores b.1))) b.2.1 : ℚ)
            / ((b.2.1.headD []).length : ℚ)).sum := by
  intro batches
  induction batches with
  | nil => intro init; simp
  | cons b bs ih =>
    intro init
    rw [List.foldl_cons, ih, List.map_cons, List.sum_cons]
    show (testStep scores crit init b).2.1 + _ = _
    unfold testStep
    ring

theorem evalFold_nsamples (scores : List (List Nat) → List (List (List ℚ)))
    (crit : List (List (List ℚ)) → List (List Nat) → ℚ) :
    ∀ (batches : List Batch) (init : EvalAcc),
      (batches.foldl (testStep scores crit) init).2.2.2 =
        init.2.2.2 + (batches.map fun b => b.1.length).sum := by
  intro batches
  induction batches with
  | nil => intro init; simp
  | cons b bs ih =>
    intro init
    rw [List.foldl_cons, ih, List.map_cons, List.sum_cons]
    simp only [testStep]
    omega

theorem sliceIdx_length (order : List Nat) (bs n k : Nat) (h : order.length = n) :
    (sliceIdx order bs n k).length = min ((k + 1) * bs) n - k * bs := by
  unfold sliceIdx
  rw [List.length_take, List.length_drop, h]
  generalize (k + 1) * bs = m
  generalize k * bs = j
  omega

theorem batchK_rows (t2i tag2i : DStr) (tokens tags : List (List String))
    (order : List Nat) (bs n k : Nat) :
    (batchK t2i tag2i tokens tags order bs n k).1.length =
      (sliceIdx order bs n k).length := by
  unfold batchK
  simp

theorem sum_batch_sizes (bs n : Nat) (hbs : 0 < bs) :
    ((List.range (nBatches n bs true)).map fun k => min ((k + 1) * bs) n - k * bs).sum = n := by
  have tele : ∀ m : Nat,
      ((List.range m).map fun k => min ((k + 1) * bs) n - min (k * bs) n).sum =
        min (m * bs) n := by
    intro m
    induction m with
    | zero => simp
    | succ m ih =>
      rw [List.range_succ, List.map_append, List.sum_append, ih]
      simp only [List.map_cons, List.map_nil, List.sum_cons, List.sum_nil]
      have hmono : m * bs ≤ (m + 1) * bs := Nat.mul_le_mul_right bs (Nat.le_succ m)
      generalize hα : m * bs = a at hmono
      generalize hβ : (m + 1) * bs = b at hmono
      omega
  have hdm : bs * (n / bs) + n % bs = n := Nat.div_add_mod n bs
  have hmlt : n % bs < bs := Nat.mod_lt n hbs
  have hqn : (n / bs) * bs ≤ n := Nat.div_mul_le_self n bs
  have hk_le : ∀ k, k < nBatches n bs true → k * bs ≤ n := by
    intro k hk
    have hkq : k ≤ n / bs := by
      unfold nBatches at hk
      by_cases hr : n % bs ≠ 0 <;> simp [hr] at hk <;> omega
    calc k * bs ≤ (n / bs) * bs := Nat.mul_le_mul_right bs hkq
      _ ≤ n := hqn
  have hcong : ((List.range (nBatches n bs true)).map fun k => min ((k + 1) * bs) n - k * bs)
      = (List.range (nBatches n bs true)).map
        fun k => min ((k + 1) * bs) n - min (k * bs) n := by
    apply List.map_congr_left
    intro k hk
    rw [Nat.min_eq_left (hk_le k (List.mem_range.1 hk))]
  rw [hcong, tele]
  have hub : n ≤ nBatches n bs true * bs := by
    unfold nBatches
    have hq : n / bs * bs = bs * (n / bs) := Nat.mul_comm _ _
    by_cases hr : n % bs ≠ 0
    · rw [if_pos ⟨rfl, hr⟩]
      have hx : (n / bs + 1) * bs = n / bs * bs + bs := by ring
      omega
    · rw [if_neg fun hc => hr hc.2]
      have hx : (n / bs + 0) * bs = n / bs * bs := by ring
      omega
  exact Nat.min_eq_right hub

/-- C4.  The accuracy returned by `test_model` is
`100 × (Σ over batches of (correct positions in the batch) /
(the batch's padded sequence-length dimension)) / (number of sequences
in the dataset)` — the double normalization the spec describes: first by
per-batch width inside the accumulation, then by sequence count. -/
theorem C4_double_normalized_accuracy (t2i tag2i : DStr) (bs : Nat)
    (tokens tags : List (List String)) (order : List Nat)
    (scores : List (List Nat) → List (List (List ℚ)))
    (crit : List (List (List ℚ)) → List (List Nat) → ℚ)
    (hbs : 0 < bs) (hord : order.length = tokens.length) :
    (test_model t2i tag2i bs tokens tags order scores crit).2 =
      100 * ((batches_generator t2i tag2i bs tokens tags order true).map
        (fun b => (countEq2 (maxDim1idx3 (permute021 (scores b.1))) b.2.1 : ℚ)
          / ((b.2.1.headD []).length : ℚ))).sum / (tokens.length : ℚ) := by
  simp only [test_model]
  rw [evalFold_correct, evalFold_nsamples]
  have hsizes : ((batches_generator t2i tag2i bs tokens tags order true).map
      fun b => b.1.length).sum = tokens.length := by
    unfold batches_generator
    rw [List.map_map]
    have : (List.map
        ((fun b : Batch => b.1.length) ∘ batchK t2i tag2i tokens tags order bs tokens.length)
        (List.range (nBatches tokens.length bs true)))
        = (List.range (nBatches tokens.length bs true)).map
          fun k => min ((k + 1) * bs) tokens.length - k * bs := by
      apply List.map_congr_left
      intro k _
      show (batchK t2i tag2i tokens tags order bs tokens.length k).1.length = _
      rw [batchK_rows, sliceIdx_length order bs tokens.length k hord]
    rw [this, sum_batch_sizes bs tokens.length hbs]
  rw [hsizes]
  simp

/-- Witness for `C4_double_normalized_accuracy` on the example data
with batch size 2 (an identity order, so a full batch and a smaller
last batch). -/
theorem C4_double_normalized_accuracy_witness :
    (test_model exT2i exTag2i 2 exTokens exTags [0, 1, 2] exScores exCrit).2 =
      100 * ((batches_generator exT2i exTag2i 2 exTokens exTags [0, 1, 2] true).map
        (fun b => (countEq2 (maxDim1idx3 (permute021 (exScores b.1))) b.2.1 : ℚ)
          / ((b.2.1.headD []).length : ℚ))).sum / (exTokens.length : ℚ) :=
  C4_double_normalized_accuracy exT2i exTag2i 2 exTokens exTags [0, 1, 2] exScores exCrit
    (by decide) (by decide)

/- ### C5: batch padding layout -/

theorem drop_replicate {α : Type} (a : α) :
    ∀ (k m : Nat), (List.replicate m a).drop k = List.replicate (m - k) a := by
  intro k
  induction k with
  | zero => intro m; simp
  | succ k ih =>
    intro m
    cases m with
    | zero => simp
    | succ m =>
      rw [List.replicate_succ, List.drop_succ_cons, ih]
      simp [Nat.succ_sub_succ]

theorem getD_map_of_lt {α β : Type} (f : α → β) (l : List α) (i : Nat) (d : α) (d' : β)
    (hi : i < l.length) : (l.map f).getD i d' = f (l.getD i d) := by
  rw [List.getD_eq_getElem?_getD, List.getD_eq_getElem?_getD, List.getElem?_map,
    List.getElem?_eq_getElem hi]
  rfl

theorem getD_mem_of_lt {α : Type} (l : List α) (i : Nat) (d : α) (hi : i < l.length) :
    l.getD i d ∈ l := by
  rw [List.getD_eq_getElem?_getD, List.getElem?_eq_getElem hi]
  exact List.getElem_mem hi

theorem foldl_max_seed_le (f : Nat → Nat) :
    ∀ (l : List Nat) (a : Nat), a ≤ l.foldl (fun m i => max m (f i)) a := by
  intro l
  induction l with
  | nil => intro a; exact Nat.le_refl a
  | cons y ys ih =>
    intro a
    exact Nat.le_trans (Nat.le_max_left a (f y)) (ih (max a (f y)))

theorem foldl_max_of_mem (f : Nat → Nat) :
    ∀ (l : List Nat) (a x : Nat), x ∈ l → f x ≤ l.foldl (fun m i => max m (f i)) a := by
  intro l
  induction l with
  | nil => intro a x hx; exact absurd hx (List.not_mem_nil x)
  | cons y ys ih =>
    intro a x hx
    rcases List.mem_cons.1 hx with hx | hx
    · subst hx
      exact Nat.le_trans (Nat.le_max_right a (f x)) (foldl_max_seed_le f ys (max a (f x)))
    · exact ih (max a (f y)) x hx

theorem foldl_congr_fn {α β : Type} (f g : α → β → α) :
    ∀ (l : List β) (a : α), (∀ st x, x ∈ l → f st x = g st x) →
      l.foldl f a = l.foldl g a := by
  intro l
  induction l with
  | nil => intro a _; rfl
  | cons y ys ih =>
    intro a h
    rw [List.foldl_cons, List.foldl_cons, h a y (List.mem_cons_self y ys)]
    exact ih (g a y) fun st x hx => h st x (List.mem_cons_of_mem y hx)

theorem overwriteFront_replicate {p : Nat} (row : List Nat) (maxLen : Nat)
    (h : row.length ≤ maxLen) :
    overwriteFront (List.replicate maxLen p) row =
      row ++ List.replicate (maxLen - row.length) p := by
  unfold overwriteFront
  rw [List.length_replicate, List.take_of_length_le h, drop_replicate]

/-- C5.  Layout of every batch produced by `batches_generator` (batch
`k` of the generated list, row `i`, source sequence `j = slice[i]`,
`x`/`y`/`lengths` the yielded triple, `maxLen` the batch's
`max_len_token`): `lengths[i]` is the true length, the first
`lengths[i]` columns of `x` (resp. `y`) are the id-mapped token (resp.
tag) sequence, every trailing column of `x` is the `<PAD>` id and of
`y` the `O` id, both matrices' rows have width `maxLen`, and `maxLen`
is the maximum true (token) length within the batch. -/
theorem C5_batch_padding (t2i tag2i : DStr) (tokens tags : List (List String))
    (order : List Nat) (bs n k : Nat) (allow : Bool)
    (x y : List (List Nat)) (lens : List Nat) (slice : List Nat) (maxLen : Nat) (i j : Nat)
    (_hn : n = tokens.length)
    (hord : ∀ j' ∈ order, j' < tokens.length)
    (heq : ∀ j' < tokens.length, (tokens.getD j' []).length = (tags.getD j' []).length)
    (_hk : k < nBatches n bs allow)
    (hB : batchK t2i tag2i tokens tags order bs n k = (x, y, lens))
    (hslice : slice = sliceIdx order bs n k)
    (hmax : maxLen = batchMaxLen tags slice)
    (hi : i < slice.length)
    (hj : j = slice.getD i 0) :
    lens.getD i 0 = (tokens.getD j []).length ∧
    (x.getD i []).take ((tokens.getD j []).length) = (tokens.getD j []).map (dLookup0 t2i) ∧
    (x.getD i []).drop ((tokens.getD j []).length) =
      List.replicate (maxLen - (tokens.getD j []).length) (dLookup0 t2i "<PAD>") ∧
    (y.getD i []).take ((tokens.getD j []).length) = (tags.getD j []).map (dLookup0 tag2i) ∧
    (y.getD i []).drop ((tokens.getD j []).length) =
      List.replicate (maxLen - (tokens.getD j []).length) (dLookup0 tag2i "O") ∧
    (x.getD i []).length = maxLen ∧
    (y.getD i []).length = maxLen ∧
    maxLen = slice.foldl (fun m idx => max m (tokens.getD idx []).length) 0 := by
  have hjmem : j ∈ slice := hj ▸ getD_mem_of_lt slice i 0 hi
  have hjlt : j < tokens.length := by
    apply hord
    rw [hslice] at hjmem
    exact List.mem_of_mem_drop (List.mem_of_mem_take hjmem)
  have hlen_le : (tokens.getD j []).length ≤ maxLen := by
    rw [heq j hjlt, hmax]
    exact foldl_max_of_mem (fun idx => (tags.getD idx []).length) slice 0 j hjmem
  have hx : x = slice.map fun idx =>
      overwriteFront (List.replicate (batchMaxLen tags slice) (dLookup0 t2i "<PAD>"))
        ((tokens.getD idx []).map (dLookup0 t2i)) := by
    have := congrArg Prod.fst hB
    simp only [batchK] at this
    rw [← this, ← hslice, List.map_map]
    rfl
  have hy : y = slice.map fun idx =>
      overwriteFront (List.replicate (batchMaxLen tags slice) (dLookup0 tag2i "O"))
        ((tags.getD idx []).map (dLookup0 tag2i)) := by
    have := congrArg (fun b : Batch => b.2.1) hB
    simp only [batchK] at this
    rw [← this, ← hslice, List.map_map]
    rfl
  have hlens : lens = slice.map fun idx => ((tokens.getD idx []).map (dLookup0 t2i)).length := by
    have := congrArg (fun b : Batch => b.2.2) hB
    simp only [batchK] at this
    rw [← this, ← hslice, List.map_map]
    rfl
  have hxrow : x.getD i [] =
      ((tokens.getD j []).map (dLookup0 t2i)) ++
        List.replicate (maxLen - (tokens.getD j []).length) (dLookup0 t2i "<PAD>") := by
    rw [hx, getD_map_of_lt _ slice i 0 [] hi, ← hj, ← hmax,
      overwriteFront_replicate _ maxLen (by simpa using hlen_le)]
    rw [List.length_map]
  have hyrow : y.getD i [] =
      ((tags.getD j []).map (dLookup0 tag2i)) ++
        List.replicate (maxLen - (tokens.getD j []).length) (dLookup0 tag2i "O") := by
    rw [hy, getD_map_of_lt _ slice i 0 [] hi, ← hj, ← hmax,
      overwriteFront_replicate _ maxLen (by rw [List.length_map, ← heq j hjlt]; exact hlen_le)]
    rw [List.length_map, ← heq j hjlt]
  have htoklen : ((tokens.getD j []).map (dLookup0 t2i)).length = (tokens.getD j []).length :=
    List.length_map _ _
  have htaglen : ((tags.getD j []).map (dLookup0 tag2i)).length = (tokens.getD j []).length := by
    rw [List.length_map, heq j hjlt]
  refine ⟨?_, ?_, ?_, ?_, ?_, ?_, ?_, ?_⟩
  · rw [hlens, getD_map_of_lt _ slice i 0 0 hi, ← hj, htoklen]
  · rw [hxrow, List.take_left' htoklen]
  · rw [hxrow, List.drop_left' htoklen]
  · rw [hyrow, List.take_left' htaglen]
  · rw [hyrow, List.drop_left' htaglen]
  · rw [hxrow, List.length_append, htoklen, List.length_replicate]
    omega
  · rw [hyrow, List.length_append, htaglen, List.length_replicate]
    omega
  · rw [hmax]
    unfold batchMaxLen
    apply foldl_congr_fn
    intro st idx hidx
    rw [heq idx (hord idx (by
      rw [hslice] at hidx
      exact List.mem_of_mem_drop (List.mem_of_mem_take hidx)))]

/-- Witness for `C5_batch_padding`: the single batch of the example
data (batch size 3, identity order), row 1 (the length-5 sequence). -/
theorem C5_batch_padding_witness :
    ([2, 5, 3] : List Nat).getD 1 0 = (exTokens.getD 1 []).length ∧
    (([[2, 3, 1, 1, 1], [2, 3, 2, 3, 2], [3, 2, 3, 1, 1]] : List (List Nat)).getD 1 []).take
        ((exTokens.getD 1 []).length) = (exTokens.getD 1 []).map (dLookup0 exT2i) ∧
    (([[2, 3, 1, 1, 1], [2, 3, 2, 3, 2], [3, 2, 3, 1, 1]] : List (List Nat)).getD 1 []).drop
        ((exTokens.getD 1 []).length) =
      List.replicate (5 - (exTokens.getD 1 []).length) (dLookup0 exT2i "<PAD>") ∧
    (([[0, 1, 0, 0, 0], [1, 0, 0, 0, 1], [0, 0, 1, 0, 0]] : List (List Nat)).getD 1 []).take
        ((exTokens.getD 1 []).length) = (exTags.getD 1 []).map (dLookup0 exTag2i) ∧
    (([[0, 1, 0, 0, 0], [1, 0, 0, 0, 1], [0, 0, 1, 0, 0]] : List (List Nat)).getD 1 []).drop
        ((exTokens.getD 1 []).length) =
      List.replicate (5 - (exTokens.getD 1 []).length) (dLookup0 exTag2i "O") ∧
    (([[2, 3, 1, 1, 1], [2, 3, 2, 3, 2], [3, 2, 3, 1, 1]] : List (List Nat)).getD 1 []).length
      = 5 ∧
    (([[0, 1, 0, 0, 0], [1, 0, 0, 0, 1], [0, 0, 1, 0, 0]] : List (List Nat)).getD 1 []).length
      = 5 ∧
    (5 : Nat) = ([0, 1, 2] : List Nat).foldl (fun m idx => max m (exTokens.getD idx []).length) 0 :=
  C5_batch_padding exT2i exTag2i exTokens exTags [0, 1, 2] 3 3 0 true
    [[2, 3, 1, 1, 1], [2, 3, 2, 3, 2], [3, 2, 3, 1, 1]]
    [[0, 1, 0, 0, 0], [1, 0, 0, 0, 1], [0, 0, 1, 0, 0]]
    [2, 5, 3] [0, 1, 2] 5 1 1
    (by decide) (by decide) (by decide) (by decide) (by decide) (by decide) (by decide)
    (by decide) (by decide)

/- ### C2: predict_sentence's reported correct count -/

/-- C2 code-bug evidence.  `predict_sentence`'s comparison block reads
the notebook-global `true_tags`, not its `tags` parameter.  With the
global set to `["B", "O"]` and the call supplying `tags = ["O", "B"]`,
the decoded prediction is `["O", "B"]`: it matches the supplied `tags`
at 2 of 2 positions, yet the reported correct count is 0 (the
comparison against the global). -/
theorem C2_reported_count_uses_global_tags :
    predict_sentence exTagger2 exT2i exI2tag exTag2i ["B", "O"] ["a", "b"] ["O", "B"] =
      Except.ok (["O", "B"], some 0) ∧
    ((List.zip ["O", "B"] ["O", "B"]).filter fun q => decide (q.1 = q.2)).length = 2 := by
  decide

/- ### C10: predict_sentence is partial at length one -/

theorem argmaxFold_cnt : ∀ (l : List ℚ) (acc : Nat × Nat × ℚ),
    (l.foldl (fun (acc : Nat × Nat × ℚ) q =>
      if q > acc.2.2 then (acc.1 + 1, acc.1, q) else (acc.1 + 1, acc.2.1, acc.2.2)) acc).1
    = acc.1 + l.length := by
  intro l
  induction l with
  | nil => intro acc; simp
  | cons q qs ih =>
    intro acc
    rw [List.foldl_cons, ih]
    by_cases h : q > acc.2.2 <;> simp [h] <;> omega

theorem argmaxFold_lt : ∀ (l : List ℚ) (acc : Nat × Nat × ℚ), acc.2.1 < acc.1 →
    (l.foldl (fun (acc : Nat × Nat × ℚ) q =>
      if q > acc.2.2 then (acc.1 + 1, acc.1, q) else (acc.1 + 1, acc.2.1, acc.2.2)) acc).2.1
    < (l.foldl (fun (acc : Nat × Nat × ℚ) q =>
      if q > acc.2.2 then (acc.1 + 1, acc.1, q) else (acc.1 + 1, acc.2.1, acc.2.2)) acc).1 := by
  intro l
  induction l with
  | nil => intro acc h; exact h
  | cons q qs ih =>
    intro acc h
    rw [List.foldl_cons]
    apply ih
    by_cases hq : q > acc.2.2 <;> (simp [hq]; try omega)

theorem argmaxFold_inv : ∀ (l : List ℚ) (acc : Nat × Nat × ℚ), acc.2.1 < max acc.1 1 →
    (l.foldl (fun (acc : Nat × Nat × ℚ) q =>
      if q > acc.2.2 then (acc.1 + 1, acc.1, q) else (acc.1 + 1, acc.2.1, acc.2.2)) acc).2.1
    < max (l.foldl (fun (acc : Nat × Nat × ℚ) q =>
      if q > acc.2.2 then (acc.1 + 1, acc.1, q) else (acc.1 + 1, acc.2.1, acc.2.2)) acc).1 1 := by
  intro l
  induction l with
  | nil => intro acc h; exact h
  | cons q qs ih =>
    intro acc h
    rw [List.foldl_cons]
    apply ih
    by_cases hq : q > acc.2.2 <;> (simp [hq]; try omega)

theorem argmaxIdx_lt (r : List ℚ) (h : r ≠ []) : argmaxIdx r < r.length := by
  unfold argmaxIdx
  have hinv := argmaxFold_inv r (0, 0, r.headD 0) (by simp)
  have hcnt := argmaxFold_cnt r (0, 0, r.headD 0)
  have hlen : 1 ≤ r.length := by
    cases r with
    | nil => exact absurd rfl h
    | cons x xs => simp
  omega

theorem mapM_asScalar (r : List ℚ) :
    (r.map Tensor.scalar).mapM asScalar = Except.ok r := by
  induction r with
  | nil => rfl
  | cons q qs ih =>
    rw [List.map_cons, List.mapM_cons, ih]
    rfl

theorem rowArgmax_tensor1 (r : List ℚ) (hr : r ≠ []) :
    rowArgmax (tensor1 r) = Except.ok (argmaxIdx r) := by
  show (do
    let qs ← (r.map Tensor.scalar).mapM asScalar
    if qs.isEmpty then
      (Except.error "max(): Expected reduction dim 1 to have non-zero size."
        : Except String Nat)
    else Except.ok (argmaxIdx qs)) = Except.ok (argmaxIdx r)
  rw [mapM_asScalar]
  show (if r.isEmpty then (Except.error
      "max(): Expected reduction dim 1 to have non-zero size." : Except String Nat)
    else Except.ok (argmaxIdx r)) = Except.ok (argmaxIdx r)
  rw [if_neg]
  simp [hr]

theorem maxDim1_rank1 (r : List ℚ) (hr : r ≠ []) :
    maxDim1 (tensor1 r) =
      Except.error "Dimension out of range (expected to be in range of [-1, 0], but got 1)" := by
  cases r with
  | nil => exact absurd rfl hr
  | cons q qs =>
    show (Tensor.scalar q :: qs.map Tensor.scalar).mapM rowArgmax = _
    rw [List.mapM_cons]
    rfl

theorem maxDim1_rank2 (m : List (List ℚ)) (hne : ∀ r ∈ m, r ≠ []) :
    maxDim1 (Tensor.dim (m.map tensor1)) = Except.ok (m.map argmaxIdx) := by
  induction m with
  | nil => rfl
  | cons r rs ih =>
    have ihr : (rs.map tensor1).mapM rowArgmax = Except.ok (rs.map argmaxIdx) :=
      ih fun r' hr' => hne r' (List.mem_cons_of_mem r hr')
    show (tensor1 r :: rs.map tensor1).mapM rowArgmax = _
    rw [List.mapM_cons, rowArgmax_tensor1 r (hne r (List.mem_cons_self r rs)), ihr]
    rfl

theorem idxs2tags_ok (d : DNat) :
    ∀ ids : List Nat, (∀ i ∈ ids, (dFindNat d i).isSome) →
      ∃ res, idxs2tags d ids = some res ∧ res.length = ids.length := by
  intro ids
  induction ids with
  | nil => intro _; exact ⟨[], rfl, rfl⟩
  | cons i is ih =>
    intro h
    obtain ⟨r, hr, hl⟩ := ih fun i' hi' => h i' (List.mem_cons_of_mem i hi')
    obtain ⟨s, hs⟩ := Option.isSome_iff_exists.1 (h i (List.mem_cons_self i is))
    refine ⟨s :: r, ?_, by simp [hl]⟩
    unfold idxs2tags at hr ⊢
    rw [List.mapM_cons, hs, hr]
    rfl

/-- C10.  `predict_sentence` is partial at length one: with the
black-box tagger returning a `[1, L, T]` score tensor (`T ≥ 2` tags),
a sentence of length exactly 1 makes `squeeze()` collapse the score
tensor to rank 1, so `.max(1)` fails with torch's dimension error
instead of returning a one-element tag list; a sentence of length at
least 2 is decoded successfully to one tag string per token. -/
theorem C10_length_one_partial (tagger : List (List Nat) → List (List (List ℚ)))
    (t2i : DStr) (i2tag : DNat) (tag2i : DStr) (g : List String)
    (sentence : List String) (T : Nat) (m : List (List ℚ))
    (hT : 2 ≤ T)
    (hout : tagger [sentence.map (dLookup0 t2i)] = [m])
    (hrows : m.length = sentence.length)
    (hcols : ∀ r ∈ m, r.length = T)
    (hdec : ∀ i < T, (dFindNat i2tag i).isSome) :
    (sentence.length = 1 →
      predict_sentence tagger t2i i2tag tag2i g sentence [] =
        Except.error "Dimension out of range (expected to be in range of [-1, 0], but got 1)") ∧
    (2 ≤ sentence.length →
      ∃ res, predict_sentence tagger t2i i2tag tag2i g sentence [] =
        Except.ok (res, none) ∧ res.length = sentence.length) := by
  constructor
  · intro h1
    obtain ⟨r, hm⟩ := List.length_eq_one.1 (hrows.trans h1)
    have hrT : r.length = T := hcols r (hm ▸ List.mem_cons_self r [])
    have hsq : squeeze3 (tagger [sentence.map (dLookup0 t2i)]) = tensor1 r := by
      rw [hout, hm]
      show squeeze1 r = tensor1 r
      cases r with
      | nil => rfl
      | cons a as =>
        cases as with
        | nil =>
          exfalso
          rw [← hrT] at hT
          simp at hT
        | cons b bs => rfl
    simp only [predict_sentence]
    rw [hsq, maxDim1_rank1 r (by intro hnil; rw [hnil] at hrT; simp at hrT; omega)]
  · intro h2
    have hsq : squeeze3 (tagger [sentence.map (dLookup0 t2i)]) =
        Tensor.dim (m.map tensor1) := by
      rw [hout]
      show squeeze2 m = Tensor.dim (m.map tensor1)
      cases m with
      | nil =>
        exfalso
        rw [← hrows] at h2
        simp at h2
      | cons r1 mrest =>
        cases mrest with
        | nil =>
          exfalso
          rw [← hrows] at h2
          simp at h2
        | cons r2 rest =>
          have hr1 : r1.length = T := hcols r1 (List.mem_cons_self r1 (r2 :: rest))
          show (if ((r1 :: r2 :: rest).headD []).length = 1
              then Tensor.dim ((r1 :: r2 :: rest).map fun r => Tensor.scalar (r.headD 0))
              else Tensor.dim ((r1 :: r2 :: rest).map tensor1)) = _
          rw [if_neg (by simp only [List.headD_cons]; omega)]
    have hne : ∀ r ∈ m, r ≠ [] := by
      intro r hr hnil
      have := hcols r hr
      rw [hnil] at this
      simp at this
      omega
    have hpred : maxDim1 (squeeze3 (tagger [sentence.map (dLookup0 t2i)])) =
        Except.ok (m.map argmaxIdx) := by
      rw [hsq]
      exact maxDim1_rank2 m hne
    have hids : ∀ i ∈ m.map argmaxIdx, (dFindNat i2tag i).isSome := by
      intro i hi
      obtain ⟨r, hr, hri⟩ := List.mem_map.1 hi
      apply hdec
      rw [← hri, ← hcols r hr]
      exact argmaxIdx_lt r (hne r hr)
    obtain ⟨res, hres, hreslen⟩ := idxs2tags_ok i2tag (m.map argmaxIdx) hids
    refine ⟨res, ?_, by rw [hreslen, List.length_map, hrows]⟩
    simp only [predict_sentence]
    rw [hpred]
    dsimp only
    rw [hres]
    rfl

/-- Witness for `C10_length_one_partial`: the concrete one-token
sentence `["a"]` with the fixed tagger `exTagger1` ends in the torch
dimension error. -/
theorem C10_length_one_partial_witness :
    ((["a"] : List String).length = 1 →
      predict_sentence exTagger1 exT2i exI2tag exTag2i [] ["a"] [] =
        Except.error "Dimension out of range (expected to be in range of [-1, 0], but got 1)") ∧
    (2 ≤ (["a"] : List String).length →
      ∃ res, predict_sentence exTagger1 exT2i exI2tag exTag2i [] ["a"] [] =
        Except.ok (res, none) ∧ res.length = (["a"] : List String).length) :=
  C10_length_one_partial exTagger1 exT2i exI2tag exTag2i [] ["a"] 2 [[1, 9]]
    (by decide) (by decide) (by decide) (by decide) (by decide)

end NER
